import Mathlib

/-!
Verification of src/python_scripts/cassis_process.py.

The module is a thin orchestration layer: every function builds command
strings for external ISIS tools, manages newline-delimited list files, and
dispatches shell invocations.  We embed it shallowly:

* `FS` is the file-system state: a list of existing directories and a list
  of files, each file holding the sequence of chunks written to it.
* `Env` is the oracle for the external world: the exit status that
  `os.system` would return for a command, and the stdout that a
  `subprocess.Popen(...).communicate()` would return for a command.
* Every source function becomes a Lean function threading `FS` explicitly
  and returning, besides its Python return value, the list of `Event`s it
  performed (shell invocations, captured invocations, directory creations,
  file writes and removals, printed messages), in execution order.
  Functions that call `os.system` or `subprocess.Popen` take the `Env`;
  where the source discards an exit status, the embedding records the
  invocation as an event without consulting `Env.runStatus`, so the result
  provably does not depend on it.
-/

namespace CassisProcess

/-- One observable action of the script, in execution order. -/
inductive Event where
  | run : String → Event
  | popen : String → Event
  | makedirs : String → Event
  | writeFile : String → List String → Event
  | removeFile : String → Event
  | print : String → Event
deriving DecidableEq, Repr

/-- The file system: existing directories, and files as the list of chunks
written to them (each `f.write` call contributes one chunk). -/
structure FS where
  dirs : List String
  files : List (String × List String)
deriving DecidableEq, Repr

/-- The external world: exit status of a shell command, and captured stdout
of a command run through a pipe. -/
structure Env where
  runStatus : String → Int
  popenOut : String → String

/-- `os.path.exists`: a path exists if it is a known directory or file. -/
def pathExists (fs : FS) (p : String) : Bool :=
  fs.dirs.contains p || (fs.files.map Prod.fst).contains p

/-- `os.path.basename` for POSIX paths: the maximal suffix containing no
slash. -/
def basename (p : String) : String :=
  String.mk ((p.toList.reverse.takeWhile (fun c => c ≠ '/')).reverse)

/-- `os.path.dirname` for POSIX paths: the prefix up to the last slash, with
trailing slashes stripped unless the prefix is all slashes. -/
def dirname (p : String) : String :=
  let headRev := p.toList.reverse.dropWhile (fun c => c ≠ '/')
  if headRev.isEmpty then ""
  else if headRev.all (fun c => c = '/') then String.mk headRev.reverse
  else String.mk ((headRev.dropWhile (fun c => c = '/')).reverse)

/-- Two-argument `os.path.join` for POSIX paths. -/
def joinPath (a b : String) : String :=
  if b.toList.head? = some '/' then b
  else if a = "" then b
  else if a.toList.getLast? = some '/' then a ++ b
  else a ++ "/" ++ b

/-- Python slicing `s[:-4]`: drop the last four characters (empty if the
string has at most four characters). -/
def dropRight4 (s : String) : String :=
  String.mk (s.toList.take (s.toList.length - 4))

/-- Python `str.strip()` restricted to the usual whitespace characters. -/
def pyStrip (s : String) : String :=
  let ws : List Char := [' ', '\t', '\n', '\r']
  String.mk (((s.toList.dropWhile (fun c => ws.contains c)).reverse.dropWhile
    (fun c => ws.contains c)).reverse)

/-- The chain `p, dirname p, dirname (dirname p), …`, cut off by fuel and
when `dirname` reaches a fixed point. -/
def ancestorChain : Nat → String → List String
  | 0, _ => []
  | n + 1, p =>
    if p = "" then []
    else p :: (if dirname p = p then [] else ancestorChain n (dirname p))

/-- Effect of `os.makedirs p`: `p` and all its ancestors become existing
directories. -/
def makedirsFS (p : String) (fs : FS) : FS :=
  { fs with dirs := ancestorChain (p.toList.length + 1) p ++ fs.dirs }

/-- Effect of the external shell command `mkdir p` (no `-p` flag): under
POSIX semantics the directory is created only when its parent already
exists (or `p` has no directory component). -/
def mkdirShell (p : String) (fs : FS) : FS :=
  if dirname p = "" || pathExists fs (dirname p) then
    { fs with dirs := p :: fs.dirs }
  else fs

/-- Effect of `open(p, 'w')` followed by writing `chunks`: any previous file
at `p` is truncated away and replaced. -/
def writeFileFS (p : String) (chunks : List String) (fs : FS) : FS :=
  { fs with files := (p, chunks) :: fs.files.filter (fun e => e.1 != p) }

/-- Effect of `os.remove p`. -/
def removeFileFS (p : String) (fs : FS) : FS :=
  { fs with files := fs.files.filter (fun e => e.1 != p) }

/-- Module-level constant `temp_dir`. -/
def temp_dir : String := "cassis_temp"

/-- `make_file_list(files, list_filename)`: create the parent directory
recursively when it is non-empty and missing, then write each file on its
own line (each write is the path followed by a newline), truncating any
existing file. -/
def make_file_list (files : List String) (list_filename : String) (fs : FS) :
    FS × List Event :=
  let list_dir := dirname list_filename
  let chunks := files.map (fun file => file ++ "\n")
  if list_dir ≠ "" && !(pathExists fs list_dir) then
    (writeFileFS list_filename chunks (makedirsFS list_dir fs),
     [Event.makedirs list_dir, Event.writeFile list_filename chunks])
  else
    (writeFileFS list_filename chunks fs,
     [Event.writeFile list_filename chunks])

/-- `ingest_framelet(filename, output_dir)`: derive the output cube name by
replacing the final four characters of the basename with ".cub", create
`output_dir` via the shell command `mkdir` (not `os.makedirs`) when
missing, run `tgocassis2isis` and `spiceinit`, and return the derived
path.  The two exit statuses are discarded by the source, so `Env` is
never consulted. -/
def ingest_framelet (env : Env) (filename output_dir : String) (fs : FS) :
    String × FS × List Event :=
  let bn := basename filename
  let output_filename := dropRight4 bn ++ ".cub"
  let fs1 := if !(pathExists fs output_dir) then mkdirShell output_dir fs else fs
  let mkEv : List Event :=
    if !(pathExists fs output_dir) then [Event.run ("mkdir " ++ output_dir)]
    else []
  let output_path := joinPath output_dir output_filename
  let ingest_command :=
    "tgocassis2isis from=" ++ filename ++ " to=" ++ output_path
  let spiceinit_command :=
    "spiceinit ckpredict=true spkpredict=true from=" ++ output_path
  (output_path, fs1,
   Event.print output_filename :: mkEv
     ++ [Event.run ingest_command, Event.run spiceinit_command])

/-- The per-file loop of `ingest_observation`. -/
def ingestLoop (env : Env) (output_dir : String) :
    List String → FS → List String × FS × List Event
  | [], fs => ([], fs, [])
  | filename :: rest, fs =>
    let r := ingest_framelet env filename output_dir fs
    let rs := ingestLoop env output_dir rest r.2.1
    (r.1 :: rs.1, rs.2.1, r.2.2 ++ rs.2.2)

/-- `ingest_observation(filenames, output_dir)`: create `output_dir`
recursively via `os.makedirs` when missing, then ingest each framelet in
order, collecting output paths in order. -/
def ingest_observation (env : Env) (filenames : List String)
    (output_dir : String) (fs : FS) : List String × FS × List Event :=
  let fs1 := if !(pathExists fs output_dir) then makedirsFS output_dir fs else fs
  let ev1 : List Event :=
    if !(pathExists fs output_dir) then [Event.makedirs output_dir] else []
  let r := ingestLoop env output_dir filenames fs1
  (r.1, r.2.1, ev1 ++ r.2.2)

/-- The `findfeatures` command string built by `match_framelets`. -/
def match_command (base train output_network network_id point_id log : String) :
    String :=
  let c := "findfeatures algorithm=sift/sift"
    ++ " match=" ++ base
    ++ " from=" ++ train
    ++ " onet=" ++ output_network
    ++ " networkID=" ++ network_id
    ++ " pointID=\"" ++ point_id ++ "\""
  if log ≠ "" then c ++ " debug=true debuglog=\"" ++ log ++ "\"" else c

/-- `match_framelets(base, train, output_network, network_id, point_id,
log)`: run `findfeatures` once and propagate its exit status. -/
def match_framelets (env : Env)
    (base train output_network network_id point_id log : String) :
    Int × List Event :=
  let cmd := match_command base train output_network network_id point_id log
  (env.runStatus cmd, [Event.run cmd])

/-- The network ID for the pair at `index` in `generate_filter_control`:
the filter name with the two indices appended. -/
def pair_network_id (filter : String) (index : Nat) : String :=
  filter ++ "_" ++ toString index ++ "_" ++ toString (index + 1)

/-- The full `findfeatures` command issued for the pair at `index`. -/
def pair_match_command (filter network_dir log_dir : String) (index : Nat)
    (base train : String) : String :=
  let network_id := pair_network_id filter index
  let network := joinPath network_dir (network_id ++ ".net")
  let point_id := network_id ++ "????"
  let log :=
    if log_dir ≠ "" then joinPath log_dir (network_id ++ ".log") else ""
  match_command base train network network_id point_id log

/-- The sequence of match commands `generate_filter_control` would issue
for consecutive pairs of `images`, starting at `index`. -/
def pairCmds (filter network_dir log_dir : String) :
    Nat → List String → List String
  | index, base :: train :: rest =>
    pair_match_command filter network_dir log_dir index base train ::
      pairCmds filter network_dir log_dir (index + 1) (train :: rest)
  | _, _ => []

/-- The sequence of per-pair network files `generate_filter_control`
accumulates, starting at `index`. -/
def pairNets (filter network_dir : String) : Nat → List String → List String
  | index, _ :: train :: rest =>
    joinPath network_dir (pair_network_id filter index ++ ".net") ::
      pairNets filter network_dir (index + 1) (train :: rest)
  | _, _ => []

/-- The pair-matching loop of `generate_filter_control`: for each
consecutive pair, build the network ID, network path, point ID and
optional log path, call `match_framelets`, and on the first non-zero
status print a failure message and return it together with the trace so
far; otherwise accumulate the network path. -/
def matchLoop (env : Env) (filter network_dir log_dir : String) :
    Nat → List String → Except (Int × List Event) (List String × List Event)
  | index, base :: train :: rest =>
    let network_id := pair_network_id filter index
    let network := joinPath network_dir (network_id ++ ".net")
    let point_id := network_id ++ "????"
    let log :=
      if log_dir ≠ "" then joinPath log_dir (network_id ++ ".log") else ""
    let r := match_framelets env base train network network_id point_id log
    if r.1 ≠ 0 then
      .error (r.1,
        r.2 ++ [Event.print ("Failed to match framelets [" ++ base
          ++ "] and [" ++ train ++ "]")])
    else
      match matchLoop env filter network_dir log_dir (index + 1) (train :: rest) with
      | .error (s, evs) => .error (s, r.2 ++ evs)
      | .ok (nets, evs) => .ok (network :: nets, r.2 ++ evs)
  | _, _ => .ok ([], [])

/-- The `cnetmerge` command string built by `generate_filter_control`. -/
def merge_command (clist output_network filter : String) : String :=
  "cnetmerge clist=" ++ clist
    ++ " onet=" ++ output_network
    ++ " network=" ++ filter
    ++ " description=\"network for the " ++ filter ++ " filter\""

/-- `generate_filter_control(images, output_network, filter, log_dir)`:
create the network and log directories recursively when missing, match
consecutive framelets fail-fast, then write the per-pair networks to a
temporary manifest, merge them with `cnetmerge`, delete the manifest and
return the merge status. -/
def generate_filter_control (env : Env) (images : List String)
    (output_network filter log_dir : String) (fs : FS) :
    Int × FS × List Event :=
  let network_dir := dirname output_network
  let fs1 := if network_dir ≠ "" && !(pathExists fs network_dir) then
    makedirsFS network_dir fs else fs
  let ev1 : List Event := if network_dir ≠ "" && !(pathExists fs network_dir)
    then [Event.makedirs network_dir] else []
  let fs2 := if log_dir ≠ "" && !(pathExists fs1 log_dir) then
    makedirsFS log_dir fs1 else fs1
  let ev2 : List Event := if log_dir ≠ "" && !(pathExists fs1 log_dir) then
    [Event.makedirs log_dir] else []
  match matchLoop env filter network_dir log_dir 0 images with
  | .error (status, evs) => (status, fs2, ev1 ++ ev2 ++ evs)
  | .ok (framelet_nets, evs) =>
    let framelet_nets_file := joinPath temp_dir "nets.lis"
    let fs3 := (make_file_list framelet_nets framelet_nets_file fs2).1
    let wev := (make_file_list framelet_nets framelet_nets_file fs2).2
    let cmd := merge_command framelet_nets_file output_network filter
    (env.runStatus cmd, removeFileFS framelet_nets_file fs3,
     ev1 ++ ev2 ++ evs ++ wev
       ++ [Event.run cmd, Event.removeFile framelet_nets_file])

/-- `make_map_file(images, output_file)`: write a temporary manifest, run
`mosrange`, remove the manifest.  No status is returned and the `mosrange`
status is discarded, so `Env` is never consulted. -/
def make_map_file (env : Env) (images : List String) (output_file : String)
    (fs : FS) : FS × List Event :=
  let image_list_file := joinPath temp_dir "mosrange.lis"
  let fs1 := (make_file_list images image_list_file fs).1
  let wev := (make_file_list images image_list_file fs).2
  let mosrange_command :=
    "mosrange fromlist=" ++ image_list_file ++ " to=" ++ output_file
  (removeFileFS image_list_file fs1,
   wev ++ [Event.run mosrange_command, Event.removeFile image_list_file])

/-- The `cam2map` command string built by `project_framelet`. -/
def cam2map_command (image_file output_file map_file : String) : String :=
  "cam2map from=" ++ image_file ++ " to=" ++ output_file
    ++ " map=" ++ map_file ++ " pixres=map"

/-- `project_framelet(image_file, map_file, output_file, trim)`: run
`cam2map` once.  The `trim` parameter is accepted but unused by the
source, and the exit status is discarded. -/
def project_framelet (env : Env) (image_file map_file output_file : String)
    (trim : Bool) : List Event :=
  [Event.run (cam2map_command image_file output_file map_file)]

/-- The per-image loop of `project_observation`. -/
def projectLoop (env : Env) (output_dir map_file : String) (trim : Bool) :
    List String → List String × List Event
  | [] => ([], [])
  | image :: rest =>
    let bn := basename image
    let output_file := dropRight4 bn ++ "_proj.cub"
    let full_output_file := joinPath output_dir output_file
    let ev := project_framelet env image map_file full_output_file trim
    let rs := projectLoop env output_dir map_file trim rest
    (full_output_file :: rs.1, ev ++ rs.2)

/-- `project_observation(filenames, output_dir, map_file, trim)`: create
`output_dir` recursively when missing, project each image in order into a
file named by replacing the final four characters of the basename with
"_proj.cub", and return the output paths in order. -/
def project_observation (env : Env) (filenames : List String)
    (output_dir map_file : String) (trim : Bool) (fs : FS) :
    List String × FS × List Event :=
  let fs1 := if !(pathExists fs output_dir) then makedirsFS output_dir fs else fs
  let ev1 : List Event :=
    if !(pathExists fs output_dir) then [Event.makedirs output_dir] else []
  let rs := projectLoop env output_dir map_file trim filenames
  (rs.1, fs1, ev1 ++ rs.2)

/-- The `getkey` command string used by `mosaic_filter` for one keyword. -/
def getkey_command (map_file keyword : String) : String :=
  "getkey from=" ++ map_file ++ " keyword=" ++ keyword ++ " grpname=Mapping"

/-- `mosaic_filter(filenames, output_file, map_file)`: write a temporary
manifest and build the base `automos` command.  With a non-empty
`map_file` that does not exist, print a message, remove the manifest and
return without running `automos`.  With an existing `map_file`, query the
four Mapping extent keywords through pipes and append their stripped
values as an explicit geographic range.  Finally run `automos` and remove
the manifest.  No status is returned. -/
def mosaic_filter (env : Env) (filenames : List String)
    (output_file map_file : String) (fs : FS) : FS × List Event :=
  let image_list_file := joinPath temp_dir "framelets.lis"
  let fs1 := (make_file_list filenames image_list_file fs).1
  let wev := (make_file_list filenames image_list_file fs).2
  let command :=
    "automos fromlist=" ++ image_list_file ++ " mosaic=" ++ output_file
  if map_file ≠ "" then
    if !(pathExists fs1 map_file) then
      (removeFileFS image_list_file fs1,
       wev ++ [Event.print ("Map file [" ++ map_file ++ "] does not exist"),
         Event.removeFile image_list_file])
    else
      let min_lat := env.popenOut (getkey_command map_file "MinimumLatitude")
      let max_lat := env.popenOut (getkey_command map_file "MaximumLatitude")
      let min_lon := env.popenOut (getkey_command map_file "MinimumLongitude")
      let max_lon := env.popenOut (getkey_command map_file "MaximumLongitude")
      let command := command
        ++ " grange=user minlat=" ++ pyStrip min_lat
        ++ " maxlat=" ++ pyStrip max_lat
        ++ " minlon=" ++ pyStrip min_lon
        ++ " maxlon=" ++ pyStrip max_lon
      (removeFileFS image_list_file fs1,
       wev ++ [Event.popen (getkey_command map_file "MinimumLatitude"),
         Event.popen (getkey_command map_file "MaximumLatitude"),
         Event.popen (getkey_command map_file "MinimumLongitude"),
         Event.popen (getkey_command map_file "MaximumLongitude"),
         Event.run command, Event.removeFile image_list_file])
  else
    (removeFileFS image_list_file fs1,
     wev ++ [Event.run command, Event.removeFile image_list_file])

/-- `stack_mosaics(mosaics, output_file)`: manifest, `cubeit`, cleanup.  No
status is returned and the `cubeit` status is discarded. -/
def stack_mosaics (env : Env) (mosaics : List String) (output_file : String)
    (fs : FS) : FS × List Event :=
  let mosaic_list_file := joinPath temp_dir "mosaics.lis"
  let fs1 := (make_file_list mosaics mosaic_list_file fs).1
  let wev := (make_file_list mosaics mosaic_list_file fs).2
  let command := "cubeit fromlist=" ++ mosaic_list_file ++ " to=" ++ output_file
  (removeFileFS mosaic_list_file fs1,
   wev ++ [Event.run command, Event.removeFile mosaic_list_file])

/-- `export_image(image, output_file)`: run `tgocassisrdrgen` and propagate
its exit status. -/
def export_image (env : Env) (image output_file : String) : Int × List Event :=
  let command := "tgocassisrdrgen from=" ++ image ++ " to=" ++ output_file
  (env.runStatus command, [Event.run command])

/-- `export_mosaic(mosaic, output_file)`: run `isis2pds` and propagate its
exit status. -/
def export_mosaic (env : Env) (mosaic output_file : String) :
    Int × List Event :=
  let command := "isis2pds from=" ++ mosaic ++ " to=" ++ output_file
    ++ " pdsversion=PDS4"
  (env.runStatus command, [Event.run command])

/-- The shell commands of a trace, in order. -/
def runCmds (evs : List Event) : List String :=
  evs.filterMap (fun e => match e with | Event.run c => some c | _ => none)

/-- The piped (output-capturing) commands of a trace, in order. -/
def popenCmds (evs : List Event) : List String :=
  evs.filterMap (fun e => match e with | Event.popen c => some c | _ => none)

/-! ### Utility lemmas -/

theorem runCmds_append (a b : List Event) :
    runCmds (a ++ b) = runCmds a ++ runCmds b := by
  simp [runCmds]

theorem runCmds_map_run (l : List String) : runCmds (l.map Event.run) = l := by
  induction l with
  | nil => rfl
  | cons c cs ih => simpa [runCmds] using ih

theorem runCmds_map_run_comp {α : Type} (f : α → String) (l : List α) :
    runCmds (l.map (fun x => Event.run (f x))) = l.map f := by
  induction l with
  | nil => rfl
  | cons a t ih => simpa [runCmds] using ih

theorem popenCmds_append (a b : List Event) :
    popenCmds (a ++ b) = popenCmds a ++ popenCmds b := by
  simp [popenCmds]

theorem runCmds_if_makedirs (c : Prop) [Decidable c] (d : String) :
    runCmds (if c then [Event.makedirs d] else []) = [] := by
  split <;> rfl

theorem popenCmds_if_makedirs (c : Prop) [Decidable c] (d : String) :
    popenCmds (if c then [Event.makedirs d] else []) = [] := by
  split <;> rfl

theorem runCmds_make_file_list (files : List String) (p : String) (fs : FS) :
    runCmds (make_file_list files p fs).2 = [] := by
  simp only [make_file_list]
  split <;> rfl

theorem popenCmds_make_file_list (files : List String) (p : String) (fs : FS) :
    popenCmds (make_file_list files p fs).2 = [] := by
  simp only [make_file_list]
  split <;> rfl

theorem runCmds_run_remove (c f : String) :
    runCmds [Event.run c, Event.removeFile f] = [c] := rfl

theorem lookup_filter_self (p : String) (l : List (String × List String)) :
    List.lookup p (l.filter (fun e => e.1 != p)) = none := by
  induction l with
  | nil => rfl
  | cons a l ih =>
    by_cases h : a.1 = p
    · simp [List.filter_cons, h, ih]
    · simp only [List.filter_cons]
      rw [if_pos (by simpa using h)]
      rw [List.lookup]
      have : (p == a.1) = false := by
        simp [Ne.symm h]
      rw [this]
      exact ih

theorem lookup_removeFileFS (p : String) (fs : FS) :
    List.lookup p (removeFileFS p fs).files = none := by
  simp [removeFileFS, lookup_filter_self]

theorem lookup_writeFileFS (p : String) (chunks : List String) (fs : FS) :
    List.lookup p (writeFileFS p chunks fs).files = some chunks := by
  simp [writeFileFS, List.lookup]

theorem make_file_list_fst (files : List String) (p : String) (fs : FS) :
    (make_file_list files p fs).1 =
      writeFileFS p (files.map (fun file => file ++ "\n"))
        (if dirname p ≠ "" && !(pathExists fs (dirname p)) then
          makedirsFS (dirname p) fs else fs) := by
  unfold make_file_list
  split
  · rename_i h
    rw [if_pos h]
  · rename_i h
    rw [if_neg h]

theorem make_file_list_snd (files : List String) (p : String) (fs : FS) :
    (make_file_list files p fs).2 =
      (if dirname p ≠ "" && !(pathExists fs (dirname p)) then
        ([Event.makedirs (dirname p)] : List Event) else [])
      ++ [Event.writeFile p (files.map (fun file => file ++ "\n"))] := by
  unfold make_file_list
  split
  · rename_i h
    rw [if_pos h]
    rfl
  · rename_i h
    rw [if_neg h]
    rfl

theorem lookup_make_file_list (files : List String) (p : String) (fs : FS) :
    List.lookup p (make_file_list files p fs).1.files =
      some (files.map (fun file => file ++ "\n")) := by
  rw [make_file_list_fst]
  exact lookup_writeFileFS ..

theorem dropRight4_append (s e : String) (h : e.toList.length = 4) :
    dropRight4 (s ++ e) = s := by
  unfold dropRight4
  have hd : (s ++ e).toList = s.toList ++ e.toList := by
    simp [String.toList]
  rw [hd]
  have hl : (s.toList ++ e.toList).length - 4 = s.toList.length := by
    rw [List.length_append, h]
    omega
  rw [hl, List.take_left]
  rfl

theorem mem_basename_ne_slash (p : String) :
    ∀ c ∈ (basename p).toList, c ≠ '/' := by
  intro c hc
  have hc' : c ∈ p.toList.reverse.takeWhile (fun c => c ≠ '/') := by
    have : (basename p).toList =
        (p.toList.reverse.takeWhile (fun c => c ≠ '/')).reverse := rfl
    rw [this, List.mem_reverse] at hc
    exact hc
  have := List.mem_takeWhile_imp hc'
  simpa using this

theorem basename_head_ne_slash (p : String) :
    (basename p).toList.head? ≠ some '/' := by
  intro h
  cases hl : (basename p).toList with
  | nil => rw [hl] at h; exact Option.noConfusion h
  | cons a t =>
    rw [hl] at h
    have ha : a = '/' := by
      injection h
    have := mem_basename_ne_slash p a (by rw [hl]; exact List.mem_cons_self a t)
    exact this ha

/-! ### Characterization of the pair-matching loop -/

theorem matchLoop_cons_cons (env : Env) (filter network_dir log_dir : String)
    (i : Nat) (base train : String) (rest : List String) :
    matchLoop env filter network_dir log_dir i (base :: train :: rest) =
      (if env.runStatus (pair_match_command filter network_dir log_dir i base train) ≠ 0 then
        .error (env.runStatus (pair_match_command filter network_dir log_dir i base train),
          [Event.run (pair_match_command filter network_dir log_dir i base train),
           Event.print ("Failed to match framelets [" ++ base
             ++ "] and [" ++ train ++ "]")])
      else
        match matchLoop env filter network_dir log_dir (i + 1) (train :: rest) with
        | .error (s, evs) => .error (s,
            Event.run (pair_match_command filter network_dir log_dir i base train) :: evs)
        | .ok (nets, evs) => .ok
            (joinPath network_dir (pair_network_id filter i ++ ".net") :: nets,
             Event.run (pair_match_command filter network_dir log_dir i base train) :: evs)) := by
  simp only [matchLoop, match_framelets, pair_match_command]
  rfl

theorem matchLoop_ok (env : Env) (filter network_dir log_dir : String)
    (images : List String) :
    ∀ i : Nat,
      (∀ c ∈ pairCmds filter network_dir log_dir i images, env.runStatus c = 0) →
      matchLoop env filter network_dir log_dir i images =
        .ok (pairNets filter network_dir i images,
          (pairCmds filter network_dir log_dir i images).map Event.run) := by
  induction images with
  | nil => intro i _; rfl
  | cons base rest ih =>
    cases rest with
    | nil => intro i _; rfl
    | cons train rest' =>
      intro i h
      rw [matchLoop_cons_cons]
      have h0 : env.runStatus
          (pair_match_command filter network_dir log_dir i base train) = 0 := by
        refine h _ ?_
        simp [pairCmds]
      rw [if_neg (by simp [h0])]
      rw [ih (i + 1) (fun c hc => h c (by simp [pairCmds, hc]))]
      simp [pairCmds, pairNets]

theorem matchLoop_error (env : Env) (filter network_dir log_dir : String)
    (images : List String) :
    ∀ (i : Nat) (pre : List String) (c : String) (post : List String),
      pairCmds filter network_dir log_dir i images = pre ++ c :: post →
      (∀ c' ∈ pre, env.runStatus c' = 0) →
      env.runStatus c ≠ 0 →
      ∃ evs, matchLoop env filter network_dir log_dir i images =
          .error (env.runStatus c, evs) ∧
        runCmds evs = pre ++ [c] := by
  induction images with
  | nil =>
    intro i pre c post hsplit _ _
    simp [pairCmds] at hsplit
  | cons base rest ih =>
    cases rest with
    | nil =>
      intro i pre c post hsplit _ _
      simp [pairCmds] at hsplit
    | cons train rest' =>
      intro i pre c post hsplit hpre hc
      rw [show pairCmds filter network_dir log_dir i (base :: train :: rest') =
        pair_match_command filter network_dir log_dir i base train ::
          pairCmds filter network_dir log_dir (i + 1) (train :: rest') from rfl] at hsplit
      cases pre with
      | nil =>
        simp only [List.nil_append] at hsplit
        have hc0 : pair_match_command filter network_dir log_dir i base train = c :=
          (List.cons.injEq _ _ _ _ ▸ hsplit).1
        rw [matchLoop_cons_cons, hc0]
        rw [if_pos hc]
        refine ⟨_, rfl, ?_⟩
        simp [runCmds]
      | cons p pre' =>
        have hp : pair_match_command filter network_dir log_dir i base train = p :=
          (List.cons.injEq _ _ _ _ ▸ hsplit).1
        have htail : pairCmds filter network_dir log_dir (i + 1) (train :: rest') =
            pre' ++ c :: post :=
          (List.cons.injEq _ _ _ _ ▸ hsplit).2
        have hp0 : env.runStatus
            (pair_match_command filter network_dir log_dir i base train) = 0 := by
          rw [hp]; exact hpre p (List.mem_cons_self p pre')
        obtain ⟨evs, heq, hrun⟩ :=
          ih (i + 1) pre' c post htail (fun c' hc' => hpre c' (List.mem_cons_of_mem p hc')) hc
        rw [matchLoop_cons_cons, if_neg (by simp [hp0]), heq]
        refine ⟨_, rfl, ?_⟩
        rw [show runCmds (Event.run (pair_match_command filter network_dir log_dir i base train) :: evs) =
          pair_match_command filter network_dir log_dir i base train :: runCmds evs from rfl]
        rw [hrun, hp]
        rfl

/-! ### Characterization of generate_filter_control -/

theorem generate_filter_control_ok (env : Env) (images : List String)
    (output_network filter log_dir : String) (fs : FS)
    (h : ∀ c ∈ pairCmds filter (dirname output_network) log_dir 0 images,
      env.runStatus c = 0) :
    (generate_filter_control env images output_network filter log_dir fs).1 =
      env.runStatus
        (merge_command (joinPath temp_dir "nets.lis") output_network filter) ∧
    runCmds (generate_filter_control env images output_network filter log_dir fs).2.2 =
      pairCmds filter (dirname output_network) log_dir 0 images
        ++ [merge_command (joinPath temp_dir "nets.lis") output_network filter] := by
  simp only [generate_filter_control]
  rw [matchLoop_ok env filter (dirname output_network) log_dir images 0 h]
  refine ⟨rfl, ?_⟩
  simp only [runCmds_append, runCmds_if_makedirs, runCmds_make_file_list,
    runCmds_map_run, runCmds_run_remove, List.nil_append, List.append_nil]

theorem generate_filter_control_error (env : Env) (images : List String)
    (output_network filter log_dir : String) (fs : FS)
    (pre : List String) (c : String) (post : List String)
    (hsplit : pairCmds filter (dirname output_network) log_dir 0 images =
      pre ++ c :: post)
    (hpre : ∀ c' ∈ pre, env.runStatus c' = 0)
    (hc : env.runStatus c ≠ 0) :
    (generate_filter_control env images output_network filter log_dir fs).1 =
      env.runStatus c ∧
    runCmds (generate_filter_control env images output_network filter log_dir fs).2.2 =
      pre ++ [c] := by
  obtain ⟨evs, heq, hrun⟩ := matchLoop_error env filter (dirname output_network)
    log_dir images 0 pre c post hsplit hpre hc
  simp only [generate_filter_control]
  rw [heq]
  refine ⟨rfl, ?_⟩
  simp only [runCmds_append, runCmds_if_makedirs, hrun, List.nil_append]

theorem matchLoop_short (env : Env) (filter network_dir log_dir : String)
    (images : List String) (h : images.length < 2) (i : Nat) :
    matchLoop env filter network_dir log_dir i images = .ok ([], []) := by
  cases images with
  | nil => rfl
  | cons a rest =>
    cases rest with
    | nil => rfl
    | cons b rest' => simp at h; omega

theorem pairCmds_short (filter network_dir log_dir : String)
    (images : List String) (h : images.length < 2) (i : Nat) :
    pairCmds filter network_dir log_dir i images = [] := by
  cases images with
  | nil => rfl
  | cons a rest =>
    cases rest with
    | nil => rfl
    | cons b rest' => simp at h; omega

theorem pairNets_short (filter network_dir : String)
    (images : List String) (h : images.length < 2) (i : Nat) :
    pairNets filter network_dir i images = [] := by
  cases images with
  | nil => rfl
  | cons a rest =>
    cases rest with
    | nil => rfl
    | cons b rest' => simp at h; omega

theorem make_file_list_creates_dirs (P : List String) (target : String)
    (fs : FS) (h1 : dirname target ≠ "")
    (h2 : pathExists fs (dirname target) = false) :
    ∀ d ∈ ancestorChain ((dirname target).toList.length + 1) (dirname target),
      pathExists (make_file_list P target fs).1 d = true := by
  intro d hd
  rw [make_file_list_fst]
  rw [if_pos (by simp [h1, h2])]
  simp [pathExists, writeFileFS, makedirsFS]
  exact Or.inl (Or.inl hd)

/-! ### Claim theorems -/

/-- Claim C1: for every image list and filter name, `generate_filter_control`
issues pairwise matches for consecutive pairs with network IDs of the form
filter_i_(i+1) in increasing index order, and on the first pairwise match
returning a non-zero status it returns that status immediately: no later
pair is ever matched and the merge tool is never invoked.  The shell
commands it issues are exactly the pair commands of `pairCmds` (which carry
the network IDs at indices 0, 1, 2, … in order); when all pairs succeed
they are followed by the single `cnetmerge` invocation, and when the pair
at position `pre.length` is the first to fail, the trace stops right after
it, the merge command never appears, and the failing status is returned. -/
theorem claim_C1_generate_filter_control_order_failfast
    (env : Env) (images : List String)
    (output_network filter log_dir : String) (fs : FS) :
    ((∀ c ∈ pairCmds filter (dirname output_network) log_dir 0 images,
        env.runStatus c = 0) →
      runCmds (generate_filter_control env images output_network filter log_dir fs).2.2 =
        pairCmds filter (dirname output_network) log_dir 0 images
          ++ [merge_command (joinPath temp_dir "nets.lis") output_network filter] ∧
      (generate_filter_control env images output_network filter log_dir fs).1 =
        env.runStatus
          (merge_command (joinPath temp_dir "nets.lis") output_network filter))
    ∧
    (∀ (pre : List String) (c : String) (post : List String),
      pairCmds filter (dirname output_network) log_dir 0 images = pre ++ c :: post →
      (∀ c' ∈ pre, env.runStatus c' = 0) →
      env.runStatus c ≠ 0 →
      (generate_filter_control env images output_network filter log_dir fs).1 =
        env.runStatus c ∧
      runCmds (generate_filter_control env images output_network filter log_dir fs).2.2 =
        pre ++ [c]) := by
  constructor
  · intro h
    obtain ⟨h1, h2⟩ :=
      generate_filter_control_ok env images output_network filter log_dir fs h
    exact ⟨h2, h1⟩
  · intro pre c post hsplit hpre hc
    exact generate_filter_control_error env images output_network filter
      log_dir fs pre c post hsplit hpre hc

/-- A concrete environment in which the first pair match of the `RED`
filter fails with status 1 and every other command succeeds. -/
def envC1 : Env :=
  { runStatus := fun s =>
      if s = pair_match_command "RED" "" "" 0 "A" "B" then 1 else 0,
    popenOut := fun _ => "" }

/-- Witness for C1: over images A, B, C with filter RED and a failing first
pair, the returned status is 1 and the only command issued is the first
pair's match command. -/
theorem claim_C1_witness :
    (generate_filter_control envC1 ["A", "B", "C"] "out.net" "RED" ""
      ⟨[], []⟩).1 = 1 ∧
    runCmds (generate_filter_control envC1 ["A", "B", "C"] "out.net" "RED" ""
      ⟨[], []⟩).2.2 = [pair_match_command "RED" "" "" 0 "A" "B"] := by
  have h := (claim_C1_generate_filter_control_order_failfast envC1
    ["A", "B", "C"] "out.net" "RED" "" ⟨[], []⟩).2
    [] (pair_match_command "RED" "" "" 0 "A" "B")
    [pair_match_command "RED" "" "" 1 "B" "C"]
    (by rfl) (by simp) (by simp [envC1])
  obtain ⟨h1, h2⟩ := h
  refine ⟨?_, by simpa using h2⟩
  rw [h1]
  simp [envC1]

/-- Claim C10: for every image list with fewer than two images,
`generate_filter_control` performs no pairwise match, still writes a
manifest containing zero network paths, still invokes the network-merge
tool on that manifest, deletes the manifest, and returns the merge tool's
exit status. -/
theorem claim_C10_generate_filter_control_short_list
    (env : Env) (images : List String)
    (output_network filter log_dir : String) (fs : FS)
    (h : images.length < 2) :
    (generate_filter_control env images output_network filter log_dir fs).1 =
      env.runStatus
        (merge_command (joinPath temp_dir "nets.lis") output_network filter) ∧
    runCmds (generate_filter_control env images output_network filter log_dir fs).2.2 =
      [merge_command (joinPath temp_dir "nets.lis") output_network filter] ∧
    Event.writeFile (joinPath temp_dir "nets.lis") [] ∈
      (generate_filter_control env images output_network filter log_dir fs).2.2 ∧
    Event.removeFile (joinPath temp_dir "nets.lis") ∈
      (generate_filter_control env images output_network filter log_dir fs).2.2 ∧
    List.lookup (joinPath temp_dir "nets.lis")
      (generate_filter_control env images output_network filter log_dir fs).2.1.files = none := by
  obtain ⟨h1, h2⟩ := generate_filter_control_ok env images output_network
    filter log_dir fs (by rw [pairCmds_short filter _ log_dir images h]; simp)
  refine ⟨h1, ?_, ?_, ?_, ?_⟩
  · rw [h2, pairCmds_short filter _ log_dir images h]
    rfl
  · simp only [generate_filter_control]
    rw [matchLoop_short env filter (dirname output_network) log_dir images h 0]
    simp [make_file_list_snd, pairNets_short filter _ images h]
  · simp only [generate_filter_control]
    rw [matchLoop_short env filter (dirname output_network) log_dir images h 0]
    simp
  · simp only [generate_filter_control]
    rw [matchLoop_short env filter (dirname output_network) log_dir images h 0]
    exact lookup_removeFileFS ..

/-- Witness for C10: with a single image, no match is run, the empty
manifest is written and removed, and the merge status (7 here) is
returned. -/
theorem claim_C10_witness :
    (generate_filter_control
      { runStatus := fun _ => 7, popenOut := fun _ => "" }
      ["A"] "out.net" "RED" "" ⟨[], []⟩).1 = 7 ∧
    runCmds (generate_filter_control
      { runStatus := fun _ => 7, popenOut := fun _ => "" }
      ["A"] "out.net" "RED" "" ⟨[], []⟩).2.2 =
      [merge_command (joinPath temp_dir "nets.lis") "out.net" "RED"] := by
  have h := claim_C10_generate_filter_control_short_list
    { runStatus := fun _ => 7, popenOut := fun _ => "" }
    ["A"] "out.net" "RED" "" ⟨[], []⟩ (by simp)
  exact ⟨h.1, h.2.1⟩

/-- Claim C2: for every non-empty sequence of paths and every target path,
`make_file_list` first creates all missing parent directories of the
target recursively, then writes a file whose line sequence equals the
input in the same order (one path per line, each write terminated by a
newline), overwriting any existing file at that path.  The overwrite is
expressed by quantifying over an arbitrary prior file system. -/
theorem claim_C2_make_file_list (P : List String) (target : String) (fs : FS)
    (hP : P ≠ []) :
    List.lookup target (make_file_list P target fs).1.files =
      some (P.map (fun p => p ++ "\n")) ∧
    (dirname target ≠ "" → pathExists fs (dirname target) = false →
      (make_file_list P target fs).2 =
        [Event.makedirs (dirname target),
         Event.writeFile target (P.map (fun p => p ++ "\n"))] ∧
      ∀ d ∈ ancestorChain ((dirname target).toList.length + 1) (dirname target),
        pathExists (make_file_list P target fs).1 d = true) := by
  refine ⟨lookup_make_file_list .., ?_⟩
  intro h1 h2
  constructor
  · rw [make_file_list_snd]
    rw [if_pos (by simp [h1, h2])]
    rfl
  · exact make_file_list_creates_dirs P target fs h1 h2

/-- Witness for C2: writing the two-element list to d/l.lis on an empty
file system creates directory d first, then writes both lines in order. -/
theorem claim_C2_witness :
    List.lookup "d/l.lis" (make_file_list ["a", "b"] "d/l.lis" ⟨[], []⟩).1.files =
      some ["a\n", "b\n"] ∧
    (make_file_list ["a", "b"] "d/l.lis" ⟨[], []⟩).2 =
      [Event.makedirs "d", Event.writeFile "d/l.lis" ["a\n", "b\n"]] ∧
    pathExists (make_file_list ["a", "b"] "d/l.lis" ⟨[], []⟩).1 "d" = true := by
  have h := claim_C2_make_file_list ["a", "b"] "d/l.lis" ⟨[], []⟩ (by simp)
  have hdir : dirname "d/l.lis" = "d" := rfl
  have h2 := h.2 (by rw [hdir]; simp) rfl
  refine ⟨h.1, by simpa using h2.1, ?_⟩
  have := h2.2 "d" (by rw [hdir]; simp [ancestorChain, dirname])
  simpa using this

/-- Claim C3: for every filename list, when `mosaic_filter` is given a
non-empty `map_file` path that does not exist, it reports the missing
file, deletes the temporary manifest, and aborts the stage without
invoking the mosaicking tool (no shell command is run at all); the
manifest is removed from the file system on every path, abort or
normal. -/
theorem claim_C3_mosaic_filter_missing_map (env : Env)
    (filenames : List String) (output_file map_file : String) (fs : FS) :
    List.lookup (joinPath temp_dir "framelets.lis")
      (mosaic_filter env filenames output_file map_file fs).1.files = none ∧
    (map_file ≠ "" →
      pathExists (make_file_list filenames (joinPath temp_dir "framelets.lis") fs).1
        map_file = false →
      runCmds (mosaic_filter env filenames output_file map_file fs).2 = [] ∧
      Event.print ("Map file [" ++ map_file ++ "] does not exist") ∈
        (mosaic_filter env filenames output_file map_file fs).2 ∧
      Event.removeFile (joinPath temp_dir "framelets.lis") ∈
        (mosaic_filter env filenames output_file map_file fs).2) := by
  constructor
  · simp only [mosaic_filter]
    split
    · split
      · exact lookup_removeFileFS ..
      · exact lookup_removeFileFS ..
    · exact lookup_removeFileFS ..
  · intro h1 h2
    simp only [mosaic_filter]
    rw [if_pos h1, if_pos (by simp [h2])]
    refine ⟨?_, by simp, by simp⟩
    simp only [runCmds_append, runCmds_make_file_list, List.nil_append]
    rfl

/-- Witness for C3: with a missing map file m.map, no command is run, the
missing-file message is printed, and the manifest is gone afterwards. -/
theorem claim_C3_witness :
    List.lookup (joinPath temp_dir "framelets.lis")
      (mosaic_filter { runStatus := fun _ => 0, popenOut := fun _ => "" }
        ["f.cub"] "mos.cub" "m.map" ⟨[], []⟩).1.files = none ∧
    runCmds (mosaic_filter { runStatus := fun _ => 0, popenOut := fun _ => "" }
      ["f.cub"] "mos.cub" "m.map" ⟨[], []⟩).2 = [] ∧
    Event.print "Map file [m.map] does not exist" ∈
      (mosaic_filter { runStatus := fun _ => 0, popenOut := fun _ => "" }
        ["f.cub"] "mos.cub" "m.map" ⟨[], []⟩).2 := by
  have h := claim_C3_mosaic_filter_missing_map
    { runStatus := fun _ => 0, popenOut := fun _ => "" }
    ["f.cub"] "mos.cub" "m.map" ⟨[], []⟩
  have h2 := h.2 (by simp) (by rfl)
  exact ⟨h.1, h2.1, by simpa using h2.2.1⟩

/-- Claim C4: for every filename list, when `mosaic_filter` is given a
`map_file` that exists, it issues exactly four keyword queries (minimum
latitude, maximum latitude, minimum longitude, maximum longitude) against
the map file, and the single `automos` invocation carries all four
returned (stripped) values as the user geographic-range arguments. -/
theorem claim_C4_mosaic_filter_four_queries (env : Env)
    (filenames : List String) (output_file map_file : String) (fs : FS)
    (h1 : map_file ≠ "")
    (h2 : pathExists (make_file_list filenames (joinPath temp_dir "framelets.lis") fs).1
      map_file = true) :
    popenCmds (mosaic_filter env filenames output_file map_file fs).2 =
      [getkey_command map_file "MinimumLatitude",
       getkey_command map_file "MaximumLatitude",
       getkey_command map_file "MinimumLongitude",
       getkey_command map_file "MaximumLongitude"] ∧
    runCmds (mosaic_filter env filenames output_file map_file fs).2 =
      ["automos fromlist=" ++ joinPath temp_dir "framelets.lis"
        ++ " mosaic=" ++ output_file
        ++ " grange=user minlat="
        ++ pyStrip (env.popenOut (getkey_command map_file "MinimumLatitude"))
        ++ " maxlat="
        ++ pyStrip (env.popenOut (getkey_command map_file "MaximumLatitude"))
        ++ " minlon="
        ++ pyStrip (env.popenOut (getkey_command map_file "MinimumLongitude"))
        ++ " maxlon="
        ++ pyStrip (env.popenOut (getkey_command map_file "MaximumLongitude"))] := by
  simp only [mosaic_filter]
  rw [if_pos h1, if_neg (by simp [h2])]
  constructor
  · simp only [popenCmds_append, popenCmds_make_file_list, List.nil_append]
    rfl
  · simp only [runCmds_append, runCmds_make_file_list, List.nil_append]
    rfl

/-- Witness for C4: with an existing map file whose keyword queries all
return " 1.5 " followed by a newline, the four getkey queries are issued
and the single automos command carries the four stripped values. -/
theorem claim_C4_witness :
    popenCmds (mosaic_filter { runStatus := fun _ => 0, popenOut := fun _ => " 1.5\n" }
      ["f.cub"] "mos.cub" "m.map" ⟨[], [("m.map", [])]⟩).2 =
      [getkey_command "m.map" "MinimumLatitude",
       getkey_command "m.map" "MaximumLatitude",
       getkey_command "m.map" "MinimumLongitude",
       getkey_command "m.map" "MaximumLongitude"] ∧
    runCmds (mosaic_filter { runStatus := fun _ => 0, popenOut := fun _ => " 1.5\n" }
      ["f.cub"] "mos.cub" "m.map" ⟨[], [("m.map", [])]⟩).2 =
      ["automos fromlist=cassis_temp/framelets.lis mosaic=mos.cub"
        ++ " grange=user minlat=1.5 maxlat=1.5 minlon=1.5 maxlon=1.5"] := by
  have h := claim_C4_mosaic_filter_four_queries
    { runStatus := fun _ => 0, popenOut := fun _ => " 1.5\n" }
    ["f.cub"] "mos.cub" "m.map" ⟨[], [("m.map", [])]⟩
    (by simp) (by rfl)
  refine ⟨h.1, ?_⟩
  rw [h.2]
  rfl

theorem joinPath_eq (a b : String) (ha : a ≠ "")
    (ha2 : a.toList.getLast? ≠ some '/') (hb : b.toList.head? ≠ some '/') :
    joinPath a b = a ++ "/" ++ b := by
  unfold joinPath
  rw [if_neg hb, if_neg ha, if_neg ha2]

theorem head_stripped_name_ne_slash (f suffix : String)
    (hs : suffix.toList.head? ≠ some '/') :
    (dropRight4 (basename f) ++ suffix).toList.head? ≠ some '/' := by
  have hd : (dropRight4 (basename f) ++ suffix).toList =
      (dropRight4 (basename f)).toList ++ suffix.toList := by
    simp [String.toList]
  rw [hd]
  cases hl : (dropRight4 (basename f)).toList with
  | nil => simpa using hs
  | cons a t =>
    simp only [List.cons_append, List.head?_cons]
    intro h
    have ha : a = '/' := by injection h
    have hmem : a ∈ (basename f).toList := by
      have hin : a ∈ (dropRight4 (basename f)).toList := by
        rw [hl]; exact List.mem_cons_self ..
      exact List.take_subset _ _ hin
    exact mem_basename_ne_slash f a hmem ha

/-- Claim C5: for every label path whose basename ends in a 4-character
extension and every output directory, `ingest_framelet` returns exactly
the basename with its last four characters replaced by ".cub", joined
under `output_dir`; and it returns this derived path regardless of the
exit statuses of the ingestion and SPICE-attachment invocations (the
result is the same under every environment). -/
theorem claim_C5_ingest_framelet_output_path (env env' : Env)
    (filename output_dir : String) (fs : FS) :
    (ingest_framelet env filename output_dir fs).1 =
      joinPath output_dir (dropRight4 (basename filename) ++ ".cub") ∧
    (ingest_framelet env filename output_dir fs).1 =
      (ingest_framelet env' filename output_dir fs).1 ∧
    (∀ stem ext : String, basename filename = stem ++ ext →
      ext.toList.length = 4 →
      (ingest_framelet env filename output_dir fs).1 =
        joinPath output_dir (stem ++ ".cub")) ∧
    (output_dir ≠ "" → output_dir.toList.getLast? ≠ some '/' →
      (ingest_framelet env filename output_dir fs).1 =
        output_dir ++ "/" ++ (dropRight4 (basename filename) ++ ".cub")) := by
  refine ⟨rfl, rfl, ?_, ?_⟩
  · intro stem ext hb hlen
    show joinPath output_dir (dropRight4 (basename filename) ++ ".cub") = _
    rw [hb, dropRight4_append stem ext hlen]
  · intro h1 h2
    show joinPath output_dir (dropRight4 (basename filename) ++ ".cub") = _
    exact joinPath_eq _ _ h1 h2
      (head_stripped_name_ne_slash filename ".cub" (by decide))

/-- Witness for C5: ingesting obs/f1.xml into directory out yields
out/f1.cub under two environments with different exit statuses. -/
theorem claim_C5_witness :
    (ingest_framelet { runStatus := fun _ => 3, popenOut := fun _ => "" }
      "obs/f1.xml" "out" ⟨[], []⟩).1 = "out/f1.cub" ∧
    (ingest_framelet { runStatus := fun _ => 0, popenOut := fun _ => "" }
      "obs/f1.xml" "out" ⟨[], []⟩).1 = "out/f1.cub" := by
  have h := claim_C5_ingest_framelet_output_path
    { runStatus := fun _ => 3, popenOut := fun _ => "" }
    { runStatus := fun _ => 0, popenOut := fun _ => "" }
    "obs/f1.xml" "out" ⟨[], []⟩
  have h3 := h.2.2.1 "f1" ".xml" (by rfl) (by rfl)
  exact ⟨by rw [h3]; rfl, by rw [← h.2.1, h3]; rfl⟩

/-- The outputs and trace of the projection loop, per image. -/
theorem projectLoop_spec (env : Env) (output_dir map_file : String)
    (trim : Bool) (filenames : List String) :
    (projectLoop env output_dir map_file trim filenames).1 =
      filenames.map (fun image =>
        joinPath output_dir (dropRight4 (basename image) ++ "_proj.cub")) ∧
    (projectLoop env output_dir map_file trim filenames).2 =
      filenames.map (fun image => Event.run (cam2map_command image
        (joinPath output_dir (dropRight4 (basename image) ++ "_proj.cub"))
        map_file)) := by
  induction filenames with
  | nil => exact ⟨rfl, rfl⟩
  | cons f rest ih =>
    simp only [projectLoop, project_framelet, List.map, List.singleton_append]
    exact ⟨by rw [ih.1], by rw [ih.2]⟩

/-- Claim C6: for every list of image paths each with a 4-character
extension, `project_observation` derives each output name by replacing the
last four characters of the basename with "_proj.cub" placed under the
output directory, projects the images in input order, and returns the
output paths in that same order. -/
theorem claim_C6_project_observation_paths (env : Env)
    (filenames : List String) (output_dir map_file : String) (trim : Bool)
    (fs : FS) :
    (project_observation env filenames output_dir map_file trim fs).1 =
      filenames.map (fun image =>
        joinPath output_dir (dropRight4 (basename image) ++ "_proj.cub")) ∧
    runCmds (project_observation env filenames output_dir map_file trim fs).2.2 =
      filenames.map (fun image => cam2map_command image
        (joinPath output_dir (dropRight4 (basename image) ++ "_proj.cub"))
        map_file) ∧
    (∀ image stem ext : String, basename image = stem ++ ext →
      ext.toList.length = 4 →
      joinPath output_dir (dropRight4 (basename image) ++ "_proj.cub") =
        joinPath output_dir (stem ++ "_proj.cub")) := by
  obtain ⟨hout, hev⟩ := projectLoop_spec env output_dir map_file trim filenames
  refine ⟨?_, ?_, ?_⟩
  · show (projectLoop env output_dir map_file trim filenames).1 = _
    exact hout
  · show runCmds ((if !(pathExists fs output_dir) then
        ([Event.makedirs output_dir] : List Event) else [])
      ++ (projectLoop env output_dir map_file trim filenames).2) = _
    rw [runCmds_append, runCmds_if_makedirs, hev, List.nil_append,
      runCmds_map_run_comp]
  · intro image stem ext hb hlen
    rw [hb, dropRight4_append stem ext hlen]

/-- Witness for C6: projecting obs/f1.cub and obs/f2.cub into directory
proj yields proj/f1_proj.cub and proj/f2_proj.cub in order, running the
two cam2map commands in order. -/
theorem claim_C6_witness :
    (project_observation { runStatus := fun _ => 0, popenOut := fun _ => "" }
      ["obs/f1.cub", "obs/f2.cub"] "proj" "m.map" false ⟨[], []⟩).1 =
      ["proj/f1_proj.cub", "proj/f2_proj.cub"] ∧
    runCmds (project_observation { runStatus := fun _ => 0, popenOut := fun _ => "" }
      ["obs/f1.cub", "obs/f2.cub"] "proj" "m.map" false ⟨[], []⟩).2.2 =
      ["cam2map from=obs/f1.cub to=proj/f1_proj.cub map=m.map pixres=map",
       "cam2map from=obs/f2.cub to=proj/f2_proj.cub map=m.map pixres=map"] := by
  have h := claim_C6_project_observation_paths
    { runStatus := fun _ => 0, popenOut := fun _ => "" }
    ["obs/f1.cub", "obs/f2.cub"] "proj" "m.map" false ⟨[], []⟩
  exact ⟨by rw [h.1]; rfl, by rw [h.2.1]; rfl⟩

/-- Claim C9: for every image file, map file, and output file, the
projection invocation performed by `project_framelet` is identical whether
`trim` is true or false: the parameter has no effect. -/
theorem claim_C9_project_framelet_trim_no_effect (env : Env)
    (image_file map_file output_file : String) :
    project_framelet env image_file map_file output_file true =
      project_framelet env image_file map_file output_file false := rfl

/-! ### Directory-creation lemmas -/

theorem pathExists_of_mem_dirs (fs : FS) (d : String) (h : d ∈ fs.dirs) :
    pathExists fs d = true := by
  simp [pathExists]
  exact Or.inl h

theorem mem_dirs_makedirsFS_chain (p d : String) (fs : FS)
    (hd : d ∈ ancestorChain (p.toList.length + 1) p) :
    d ∈ (makedirsFS p fs).dirs :=
  List.mem_append_left _ hd

theorem mem_dirs_makedirsFS (p d : String) (fs : FS) (h : d ∈ fs.dirs) :
    d ∈ (makedirsFS p fs).dirs :=
  List.mem_append_right _ h

theorem mem_dirs_mkdirShell (p d : String) (fs : FS) (h : d ∈ fs.dirs) :
    d ∈ (mkdirShell p fs).dirs := by
  unfold mkdirShell
  split
  · exact List.mem_cons_of_mem _ h
  · exact h

theorem dirs_writeFileFS (p : String) (chunks : List String) (fs : FS) :
    (writeFileFS p chunks fs).dirs = fs.dirs := rfl

theorem dirs_removeFileFS (p : String) (fs : FS) :
    (removeFileFS p fs).dirs = fs.dirs := rfl

theorem mem_dirs_make_file_list (P : List String) (t d : String) (fs : FS)
    (h : d ∈ fs.dirs) : d ∈ (make_file_list P t fs).1.dirs := by
  rw [make_file_list_fst, dirs_writeFileFS]
  split
  · exact mem_dirs_makedirsFS _ _ _ h
  · exact h

theorem mem_dirs_ingest_framelet (env : Env) (f od d : String) (fs : FS)
    (h : d ∈ fs.dirs) : d ∈ (ingest_framelet env f od fs).2.1.dirs := by
  simp only [ingest_framelet]
  split
  · exact mem_dirs_mkdirShell _ _ _ h
  · exact h

theorem mem_dirs_ingestLoop (env : Env) (od : String) (l : List String) :
    ∀ (fs : FS) (d : String), d ∈ fs.dirs →
      d ∈ (ingestLoop env od l fs).2.1.dirs := by
  induction l with
  | nil => intro fs d h; exact h
  | cons f rest ih =>
    intro fs d h
    exact ih _ d (mem_dirs_ingest_framelet env f od d fs h)

/-- `ingest_framelet` leaves the file system untouched when the parent of
`output_dir` is missing: the plain `mkdir` it runs fails. -/
theorem ingest_framelet_no_creation (env : Env) (filename output_dir : String)
    (fs : FS) (h1 : dirname output_dir ≠ "")
    (h2 : pathExists fs (dirname output_dir) = false) :
    (ingest_framelet env filename output_dir fs).2.1 = fs := by
  simp only [ingest_framelet]
  split
  · unfold mkdirShell
    rw [if_neg (by simp [h1, h2])]
  · rfl

theorem generate_filter_control_network_dirs (env : Env)
    (images : List String) (output_network filter log_dir : String) (fs : FS)
    (h1 : dirname output_network ≠ "")
    (h2 : pathExists fs (dirname output_network) = false) :
    ∀ d ∈ ancestorChain ((dirname output_network).toList.length + 1)
      (dirname output_network),
      pathExists
        (generate_filter_control env images output_network filter log_dir fs).2.1
        d = true := by
  intro d hd
  apply pathExists_of_mem_dirs
  simp only [generate_filter_control]
  split
  · split
    · split
      · exact mem_dirs_makedirsFS _ _ _ (mem_dirs_makedirsFS_chain _ _ _ hd)
      · exact mem_dirs_makedirsFS_chain _ _ _ hd
    · rename_i hc1
      simp [h1, h2] at hc1
  · split
    · split
      · exact mem_dirs_make_file_list _ _ _ _
          (mem_dirs_makedirsFS _ _ _ (mem_dirs_makedirsFS_chain _ _ _ hd))
      · exact mem_dirs_make_file_list _ _ _ _ (mem_dirs_makedirsFS_chain _ _ _ hd)
    · rename_i hc1
      simp [h1, h2] at hc1

theorem ingest_framelet_env_irrel (env env' : Env) (f od : String) (fs : FS) :
    ingest_framelet env f od fs = ingest_framelet env' f od fs := rfl

theorem ingestLoop_env_irrel (env env' : Env) (od : String) (l : List String) :
    ∀ fs : FS, ingestLoop env od l fs = ingestLoop env' od l fs := by
  induction l with
  | nil => intro fs; rfl
  | cons f rest ih =>
    intro fs
    simp only [ingestLoop]
    rw [ih]
    rfl

theorem projectLoop_env_irrel (env env' : Env) (od mf : String) (trim : Bool)
    (l : List String) :
    projectLoop env od mf trim l = projectLoop env' od mf trim l := by
  induction l with
  | nil => rfl
  | cons f rest ih =>
    simp only [projectLoop]
    rw [ih]
    rfl

/-- Counterexample to claim C8 as stated: `ingest_framelet` does NOT create
a missing `output_dir` when the parent directory is missing.  On an empty
file system with output directory a/b it issues the non-recursive shell
command `mkdir a/b` (never `os.makedirs`), which under POSIX semantics
fails because a does not exist, leaving the file system unchanged; in
particular a/b still does not exist afterwards. -/
theorem claim_C8_counterexample :
    pathExists (ingest_framelet { runStatus := fun _ => 0, popenOut := fun _ => "" }
      "f.xml" "a/b" ⟨[], []⟩).2.1 "a/b" = false ∧
    (ingest_framelet { runStatus := fun _ => 0, popenOut := fun _ => "" }
      "f.xml" "a/b" ⟨[], []⟩).2.1 = (⟨[], []⟩ : FS) ∧
    (ingest_framelet { runStatus := fun _ => 0, popenOut := fun _ => "" }
      "f.xml" "a/b" ⟨[], []⟩).2.2 =
      [Event.print "f.cub", Event.run "mkdir a/b",
       Event.run "tgocassis2isis from=f.xml to=a/b/f.cub",
       Event.run "spiceinit ckpredict=true spkpredict=true from=a/b/f.cub"] := by
  refine ⟨rfl, rfl, rfl⟩

/-- Claim C8 amended: the stages that create directories through
`os.makedirs` (the list-file manager, observation ingestion, observation
projection, and filter-network generation) create a missing directory
recursively, including all missing ancestors; `ingest_framelet` is the
exception: it issues the plain shell command `mkdir output_dir`, which
does not create missing parents, so when the parent of `output_dir` is
missing the file system is left unchanged. -/
theorem claim_C8_amended_recursive_dirs (env : Env) :
    (∀ (P : List String) (target : String) (fs : FS),
      dirname target ≠ "" → pathExists fs (dirname target) = false →
      ∀ d ∈ ancestorChain ((dirname target).toList.length + 1) (dirname target),
        pathExists (make_file_list P target fs).1 d = true) ∧
    (∀ (filenames : List String) (output_dir : String) (fs : FS),
      pathExists fs output_dir = false →
      ∀ d ∈ ancestorChain (output_dir.toList.length + 1) output_dir,
        pathExists (ingest_observation env filenames output_dir fs).2.1 d = true) ∧
    (∀ (filenames : List String) (output_dir map_file : String) (trim : Bool)
      (fs : FS),
      pathExists fs output_dir = false →
      ∀ d ∈ ancestorChain (output_dir.toList.length + 1) output_dir,
        pathExists (project_observation env filenames output_dir map_file trim fs).2.1
          d = true) ∧
    (∀ (images : List String) (output_network filter log_dir : String) (fs : FS),
      dirname output_network ≠ "" →
      pathExists fs (dirname output_network) = false →
      ∀ d ∈ ancestorChain ((dirname output_network).toList.length + 1)
        (dirname output_network),
        pathExists
          (generate_filter_control env images output_network filter log_dir fs).2.1
          d = true) ∧
    (∀ (filename output_dir : String) (fs : FS),
      dirname output_dir ≠ "" → pathExists fs (dirname output_dir) = false →
      (ingest_framelet env filename output_dir fs).2.1 = fs ∧
      (pathExists fs output_dir = false →
        Event.run ("mkdir " ++ output_dir) ∈
          (ingest_framelet env filename output_dir fs).2.2)) := by
  refine ⟨make_file_list_creates_dirs, ?_, ?_, ?_, ?_⟩
  · intro filenames output_dir fs h d hd
    apply pathExists_of_mem_dirs
    simp only [ingest_observation]
    split
    · exact mem_dirs_ingestLoop env _ _ _ d (mem_dirs_makedirsFS_chain _ _ _ hd)
    · rename_i hc
      simp [h] at hc
  · intro filenames output_dir map_file trim fs h d hd
    apply pathExists_of_mem_dirs
    simp only [project_observation]
    split
    · exact mem_dirs_makedirsFS_chain _ _ _ hd
    · rename_i hc
      simp [h] at hc
  · intro images output_network filter log_dir fs h1 h2
    exact generate_filter_control_network_dirs env images output_network
      filter log_dir fs h1 h2
  · intro filename output_dir fs h1 h2
    refine ⟨ingest_framelet_no_creation env filename output_dir fs h1 h2, ?_⟩
    intro h3
    simp only [ingest_framelet]
    simp [h3]

/-- Witness for the amended C8: `ingest_observation` into a/b on an empty
file system creates both a and a/b, while `ingest_framelet` into the same
directory creates nothing. -/
theorem claim_C8_witness :
    pathExists (ingest_observation { runStatus := fun _ => 0, popenOut := fun _ => "" }
      ["x/f.xml"] "a/b" ⟨[], []⟩).2.1 "a" = true ∧
    pathExists (ingest_observation { runStatus := fun _ => 0, popenOut := fun _ => "" }
      ["x/f.xml"] "a/b" ⟨[], []⟩).2.1 "a/b" = true ∧
    (ingest_framelet { runStatus := fun _ => 0, popenOut := fun _ => "" }
      "f.xml" "a/b" ⟨[], []⟩).2.1 = (⟨[], []⟩ : FS) := by
  have h := claim_C8_amended_recursive_dirs
    { runStatus := fun _ => 0, popenOut := fun _ => "" }
  refine ⟨h.2.1 ["x/f.xml"] "a/b" ⟨[], []⟩ rfl "a" (by decide),
    h.2.1 ["x/f.xml"] "a/b" ⟨[], []⟩ rfl "a/b" (by decide),
    (h.2.2.2.2 "f.xml" "a/b" ⟨[], []⟩ (by decide) rfl).1⟩

/-- Claim C7: external-tool exit statuses are propagated to the caller by
the matching stage (`match_framelets`), the merge stage (the status
returned by `generate_filter_control` when all pairs match), and the
export stages (`export_image`, `export_mosaic`); they are discarded — no
status is returned, and the result is identical under environments with
arbitrary exit statuses — by the ingest (`ingest_framelet`,
`ingest_observation`), map-definition (`make_map_file`), projection
(`project_framelet`, `project_observation`), mosaic (`mosaic_filter`,
whose result depends only on captured stdout, never on an exit status) and
stack (`stack_mosaics`) stages. -/
theorem claim_C7_status_propagation_split (env env' : Env) :
    (∀ base train onet nid pid log,
      (match_framelets env base train onet nid pid log).1 =
        env.runStatus (match_command base train onet nid pid log)) ∧
    (∀ image out, (export_image env image out).1 =
      env.runStatus ("tgocassisrdrgen from=" ++ image ++ " to=" ++ out)) ∧
    (∀ mosaic out, (export_mosaic env mosaic out).1 =
      env.runStatus
        ("isis2pds from=" ++ mosaic ++ " to=" ++ out ++ " pdsversion=PDS4")) ∧
    (∀ images onet filter log_dir fs,
      (∀ c ∈ pairCmds filter (dirname onet) log_dir 0 images,
        env.runStatus c = 0) →
      (generate_filter_control env images onet filter log_dir fs).1 =
        env.runStatus (merge_command (joinPath temp_dir "nets.lis") onet filter)) ∧
    (∀ filename output_dir fs,
      ingest_framelet env filename output_dir fs =
        ingest_framelet env' filename output_dir fs) ∧
    (∀ filenames output_dir fs,
      ingest_observation env filenames output_dir fs =
        ingest_observation env' filenames output_dir fs) ∧
    (∀ images output_file fs,
      make_map_file env images output_file fs =
        make_map_file env' images output_file fs) ∧
    (∀ image_file map_file output_file trim,
      project_framelet env image_file map_file output_file trim =
        project_framelet env' image_file map_file output_file trim) ∧
    (∀ filenames output_dir map_file trim fs,
      project_observation env filenames output_dir map_file trim fs =
        project_observation env' filenames output_dir map_file trim fs) ∧
    (∀ filenames output_file map_file fs, env.popenOut = env'.popenOut →
      mosaic_filter env filenames output_file map_file fs =
        mosaic_filter env' filenames output_file map_file fs) ∧
    (∀ mosaics output_file fs,
      stack_mosaics env mosaics output_file fs =
        stack_mosaics env' mosaics output_file fs) := by
  refine ⟨fun _ _ _ _ _ _ => rfl, fun _ _ => rfl, fun _ _ => rfl,
    ?_, fun _ _ _ => rfl, ?_, fun _ _ _ => rfl, fun _ _ _ _ => rfl,
    ?_, ?_, fun _ _ _ => rfl⟩
  · intro images onet filter log_dir fs h
    exact (generate_filter_control_ok env images onet filter log_dir fs h).1
  · intro filenames output_dir fs
    simp only [ingest_observation]
    rw [ingestLoop_env_irrel env env']
  · intro filenames output_dir map_file trim fs
    simp only [project_observation]
    rw [projectLoop_env_irrel env env']
  · intro filenames output_file map_file fs h
    simp only [mosaic_filter]
    rw [h]

/-- Witness for C7: under an environment whose commands all exit with
status 5, the export stage returns 5, the merge status 5 is returned by
`generate_filter_control` on a single image, and the ingest and mosaic
stages produce identical results under a second environment whose
commands all exit 0. -/
theorem claim_C7_witness :
    (export_image { runStatus := fun _ => 5, popenOut := fun _ => "k" }
      "i.cub" "o.img").1 = 5 ∧
    (generate_filter_control { runStatus := fun _ => 5, popenOut := fun _ => "k" }
      ["A"] "out.net" "RED" "" ⟨[], []⟩).1 = 5 ∧
    ingest_framelet { runStatus := fun _ => 5, popenOut := fun _ => "k" }
      "f.xml" "d" ⟨[], []⟩ =
      ingest_framelet { runStatus := fun _ => 0, popenOut := fun _ => "k" }
        "f.xml" "d" ⟨[], []⟩ ∧
    mosaic_filter { runStatus := fun _ => 5, popenOut := fun _ => "k" }
      ["f.cub"] "m.cub" "" ⟨[], []⟩ =
      mosaic_filter { runStatus := fun _ => 0, popenOut := fun _ => "k" }
        ["f.cub"] "m.cub" "" ⟨[], []⟩ := by
  have h := claim_C7_status_propagation_split
    { runStatus := fun _ => 5, popenOut := fun _ => "k" }
    { runStatus := fun _ => 0, popenOut := fun _ => "k" }
  refine ⟨h.2.1 "i.cub" "o.img", ?_, h.2.2.2.2.1 "f.xml" "d" ⟨[], []⟩,
    h.2.2.2.2.2.2.2.2.2.1 ["f.cub"] "m.cub" "" ⟨[], []⟩ rfl⟩
  exact h.2.2.2.1 ["A"] "out.net" "RED" "" ⟨[], []⟩ (by simp [pairCmds])

end CassisProcess
